import Mathlib

/-
Verification of the buffered, length-delimited frame reader from
`src/src/main.rs` (the `Connection` sketch at lines 518-575).

Shallow embedding conventions:
* bytes are `Nat`; a `Vec<u8>` is a `List Nat` together with a tracked
  allocation capacity (`cap`), since `Vec::with_capacity` and `Vec::resize`
  distinguish length from capacity;
* the read side of the TCP stream is a list of pending data chunks; one
  `read` call delivers bytes from the first chunk, truncated to the length
  of the destination slice, and an exhausted transport delivers 0 bytes;
* `read_frame`'s unbounded `loop` is embedded with explicit fuel; `none`
  means the fuel ran out, `some` is an actual return of the Rust function;
* the frame grammar (`parse_frame`'s body) is absent from the repository
  (left as TODO per the notes), so it is modelled from the spec as a pure
  codec plus eager compaction.
-/

/-- A decoded protocol frame. `mini_redis::Frame` is an external type; frames
are treated as opaque decoded payloads. -/
abbrev Frame := List Nat

/-- Outcome of running the frame grammar on the unparsed bytes, following the
spec contract for the codec: a complete frame together with the number of
bytes it consumed, or not-enough-data, or a grammar violation. -/
inductive ParseOutcome where
  | Complete (f : Frame) (consumed : Nat)
  | Incomplete
  | Malformed
deriving DecidableEq, Repr

/-- The frame grammar: a pure function on the unparsed byte slice. -/
abbrev Codec := List Nat → ParseOutcome

/-- Pending data of the read half of a `TcpStream`, as successive chunks.
One `read` into a destination slice of length `destLen` delivers
`min destLen (first chunk length)` bytes; an exhausted transport delivers
0 bytes (orderly end of stream). -/
abbrev Transport := List (List Nat)

/-- `Connection` (main.rs:519-523): the stream handle plus a growable byte
buffer and a cursor marking how many bytes of the buffer hold data read from
the stream. The stream itself is passed separately as a `Transport`. -/
structure Connection where
  buffer : List Nat
  cursor : Nat
  cap : Nat
deriving DecidableEq, Repr

/-- `Connection::new` (main.rs:525-532): `Vec::with_capacity(1024 * 4)`
allocates capacity 4096 but length 0; the cursor starts at 0. -/
def Connection.new : Connection :=
  { buffer := [], cursor := 0, cap := 1024 * 4 }

/-- `Vec::resize(n, 0)`: truncate to `n` elements, or pad with zero bytes up
to length `n`. -/
def vecResize (buf : List Nat) (n : Nat) : List Nat :=
  buf.take n ++ List.replicate (n - buf.length) 0

/-- Overwrite the buffer starting at offset `off` with the bytes `d`,
leaving everything before `off` and everything past `off + d.length` in
place. This is what the transport read does when it fills
`&mut buffer[cursor..]` (main.rs:559). -/
def writeAt (buf : List Nat) (off : Nat) (d : List Nat) : List Nat :=
  buf.take off ++ d ++ buf.drop (off + d.length)

/-- The guarded growth step of `read_frame` (main.rs:552-555): when the
cursor has reached the buffer's length, `self.buffer.resize(self.cursor * 2, 0)`.
`Vec::resize` reallocates only when the new length exceeds the current
capacity, so the tracked capacity becomes `max cap (cursor * 2)`. -/
def growIfFull (c : Connection) : Connection :=
  if c.cursor == c.buffer.length then
    { c with
        buffer := vecResize c.buffer (c.cursor * 2),
        cap := max c.cap (c.cursor * 2) }
  else c

/-- Record `d.length` freshly read bytes (main.rs:559 writes them at the
cursor, main.rs:571 advances the cursor by the count). -/
def appendData (c : Connection) (d : List Nat) : Connection :=
  { c with
      buffer := writeAt c.buffer c.cursor d,
      cursor := c.cursor + d.length }

/-- One transport read into a destination slice of length `destLen`:
deliver the first pending chunk truncated to `destLen` bytes, keeping any
undelivered remainder of that chunk at the front; an exhausted transport
delivers 0 bytes. -/
def transportRead (destLen : Nat) (t : Transport) : List Nat × Transport :=
  match t with
  | [] => ([], [])
  | chunk :: rest =>
      (chunk.take destLen,
        if (chunk.drop destLen).isEmpty then rest else chunk.drop destLen :: rest)

/-- Eager compaction (spec section 4.1, required behavior): shift the still
unparsed live bytes `[k, cursor)` down to offset 0; positions from
`cursor - k` on keep their previous contents (the shift moves bytes, it does
not shrink the allocation); the cursor retreats by the `k` consumed bytes. -/
def compactShift (buf : List Nat) (k cursor : Nat) : List Nat :=
  (buf.drop k).take (cursor - k) ++ buf.drop (cursor - k)

/-- Consume `k` parsed bytes from the front of the live region. -/
def compact (c : Connection) (k : Nat) : Connection :=
  { c with buffer := compactShift c.buffer k c.cursor, cursor := c.cursor - k }

/-- Modelled from the spec: `parse_frame` is called at main.rs:538 but its
body is missing from the repository (the design notes record the frame
grammar as an unimplemented TODO). Following spec sections 4.1/4.2: run the
pure grammar on the live region `[0, cursor)`; on a complete frame, eagerly
compact away the consumed bytes and return the frame; on not-enough-data,
return `none` with the state untouched; on a grammar violation, return a
protocol error. -/
def parse_frame (p : Codec) (c : Connection) :
    Except String (Option Frame × Connection) :=
  match p (c.buffer.take c.cursor) with
  | .Malformed => .error "frame malformed"
  | .Incomplete => .ok (none, c)
  | .Complete f k => .ok (some f, compact c k)

/-- The observable outcome of one `read_frame` call. -/
inductive ReadResult where
  | frame (f : Frame)
  | endOfStream
  | connReset
  | malformed
deriving DecidableEq, Repr

/-- Bump the count of transport reads performed, leaving the rest of a
`read_frame` return value alone. -/
def bumpReads (x : ReadResult × Connection × Transport × Nat) :
    ReadResult × Connection × Transport × Nat :=
  (x.1, x.2.1, x.2.2.1, x.2.2.2 + 1)

/-- Project the caller-visible outcome out of a `read_frame` return value. -/
def resultOf (x : ReadResult × Connection × Transport × Nat) : ReadResult :=
  x.1

/-- `Connection::read_frame` (main.rs:534-573). Each loop iteration first
tries `parse_frame`; a parse error propagates through `?` at once
(`.malformed`), a complete frame returns (`.frame`). Otherwise the buffer is
resized when the cursor has reached its length, one read is issued into
`buffer[cursor..]`, and a 0-byte read returns `Ok(None)` (`.endOfStream`)
when `buffer.is_empty()` and `Err("connection reset by peer")`
(`.connReset`) otherwise; a positive read advances the cursor and loops.
The returned tuple also carries the final connection, the remaining
transport, and how many transport reads the call issued; `none` means the
fuel ran out before the Rust loop returned. -/
def read_frame (p : Codec) :
    Nat → Connection → Transport →
      Option (ReadResult × Connection × Transport × Nat)
  | 0, _, _ => none
  | fuel + 1, c, t =>
    match parse_frame p c with
    | .error _ => some (.malformed, c, t, 0)
    | .ok (some f, c') => some (.frame f, c', t, 0)
    | .ok (none, c') =>
        let c1 := growIfFull c'
        let d := (transportRead (c1.buffer.length - c1.cursor) t).1
        let t' := (transportRead (c1.buffer.length - c1.cursor) t).2
        if d.length = 0 then
          if c1.buffer.isEmpty then some (.endOfStream, c1, t', 1)
          else some (.connReset, c1, t', 1)
        else
          (read_frame p fuel (appendData c1 d) t').map bumpReads

/-- Drive `read_frame` up to `calls` times, collecting the decoded frames in
the order the calls return them; stop at the first call that does not
produce a frame. -/
def readFrames (p : Codec) (fuel : Nat) :
    Nat → Connection → Transport → List Frame
  | 0, _, _ => []
  | calls + 1, c, t =>
    match read_frame p fuel c t with
    | some (.frame f, c', t', _) => f :: readFrames p fuel calls c' t'
    | _ => []

/-- A concrete length-delimited grammar used to exercise the reader: the
first byte gives the payload length (byte 255 is reserved and rejected as
malformed), and a complete frame consumes `1 + length` bytes. -/
def demoCodec : Codec := fun bytes =>
  match bytes with
  | [] => .Incomplete
  | n :: rest =>
      if n = 255 then .Malformed
      else if rest.length < n then .Incomplete
      else .Complete (rest.take n) (n + 1)

/-- The buffer-manager invariant of spec section 3 read on the code's
fields: `0 ≤ cursor ≤ buffer.len() ≤ capacity`. -/
def BufInv (c : Connection) : Prop :=
  c.cursor ≤ c.buffer.length ∧ c.buffer.length ≤ c.cap

instance (c : Connection) : Decidable (BufInv c) := by
  unfold BufInv; infer_instance

theorem vecResize_length (buf : List Nat) (n : Nat) :
    (vecResize buf n).length = n := by
  simp [vecResize]; omega

theorem vecResize_take (buf : List Nat) (n m : Nat) (h1 : m ≤ buf.length)
    (h2 : m ≤ n) : (vecResize buf n).take m = buf.take m := by
  unfold vecResize
  rw [List.take_append_eq_append_take, List.take_take, min_eq_left h2]
  have h0 : m - (buf.take n).length = 0 := by rw [List.length_take]; omega
  rw [h0, List.take_zero, List.append_nil]

theorem growIfFull_cursor (c : Connection) :
    (growIfFull c).cursor = c.cursor := by
  unfold growIfFull; split <;> rfl

theorem growIfFull_take (c : Connection) (h : c.cursor ≤ c.buffer.length) :
    (growIfFull c).buffer.take c.cursor = c.buffer.take c.cursor := by
  unfold growIfFull; split
  · exact vecResize_take _ _ _ h (by omega)
  · rfl

theorem cursor_le_growIfFull_length (c : Connection)
    (h : c.cursor ≤ c.buffer.length) :
    c.cursor ≤ (growIfFull c).buffer.length := by
  unfold growIfFull; split
  · simp [vecResize_length]; omega
  · exact h

theorem growIfFull_length_pos (c : Connection) (h : c.cursor ≤ c.buffer.length)
    (hpos : 0 < c.cursor) : 0 < (growIfFull c).buffer.length :=
  lt_of_lt_of_le hpos (cursor_le_growIfFull_length c h)

theorem writeAt_take (buf : List Nat) (off : Nat) (d : List Nat)
    (h : off ≤ buf.length) : (writeAt buf off d).take off = buf.take off := by
  unfold writeAt
  rw [List.append_assoc, List.take_append_eq_append_take, List.take_take, min_self]
  have h0 : off - (buf.take off).length = 0 := by rw [List.length_take]; omega
  rw [h0, List.take_zero, List.append_nil]

theorem writeAt_length (buf : List Nat) (off : Nat) (d : List Nat)
    (h : off + d.length ≤ buf.length) :
    (writeAt buf off d).length = buf.length := by
  simp [writeAt]; omega

theorem compactShift_length (buf : List Nat) (k cursor : Nat)
    (h : cursor ≤ buf.length) :
    (compactShift buf k cursor).length = buf.length := by
  simp [compactShift]; omega

theorem transportRead_length_le (destLen : Nat) (t : Transport) :
    (transportRead destLen t).1.length ≤ destLen := by
  cases t <;> simp [transportRead, List.length_take]

theorem compact_empty (c : Connection) (k : Nat) (hb : c.buffer = [])
    (hc : c.cursor = 0) : compact c k = c := by
  cases c with
  | mk buffer cursor cap => simp_all [compact, compactShift]

theorem growIfFull_empty (c : Connection) (hb : c.buffer = [])
    (hc : c.cursor = 0) : growIfFull c = c := by
  cases c with
  | mk buffer cursor cap => simp_all [growIfFull, vecResize]

theorem read_frame_on_complete (p : Codec) (fuel : Nat) (c : Connection)
    (t : Transport) (f : Frame) (k : Nat)
    (hp : p (c.buffer.take c.cursor) = .Complete f k) :
    read_frame p (fuel + 1) c t = some (.frame f, compact c k, t, 0) := by
  have hpf : parse_frame p c = .ok (some f, compact c k) := by
    simp [parse_frame, hp]
  simp only [read_frame, hpf]

theorem read_frame_on_malformed (p : Codec) (fuel : Nat) (c : Connection)
    (t : Transport) (hp : p (c.buffer.take c.cursor) = .Malformed) :
    read_frame p (fuel + 1) c t = some (.malformed, c, t, 0) := by
  have hpf : parse_frame p c = .error "frame malformed" := by
    simp [parse_frame, hp]
  simp only [read_frame, hpf]

theorem read_frame_on_incomplete (p : Codec) (fuel : Nat) (c : Connection)
    (t : Transport) (hp : p (c.buffer.take c.cursor) = .Incomplete) :
    read_frame p (fuel + 1) c t =
      (if ((transportRead ((growIfFull c).buffer.length - (growIfFull c).cursor) t).1).length
            = 0 then
        if (growIfFull c).buffer.isEmpty then
          some (.endOfStream, growIfFull c,
            (transportRead ((growIfFull c).buffer.length - (growIfFull c).cursor) t).2, 1)
        else
          some (.connReset, growIfFull c,
            (transportRead ((growIfFull c).buffer.length - (growIfFull c).cursor) t).2, 1)
      else
        (read_frame p fuel
            (appendData (growIfFull c)
              ((transportRead ((growIfFull c).buffer.length - (growIfFull c).cursor) t).1))
            ((transportRead ((growIfFull c).buffer.length - (growIfFull c).cursor) t).2)).map
          bumpReads) := by
  have hpf : parse_frame p c = .ok (none, c) := by
    simp [parse_frame, hp]
  simp only [read_frame, hpf]

theorem transportRead_zero_fst (t : Transport) : (transportRead 0 t).1 = [] := by
  cases t <;> simp [transportRead]

theorem bufInv_new : BufInv Connection.new := by decide

theorem bufInv_grow (c : Connection) (h : BufInv c) : BufInv (growIfFull c) := by
  obtain ⟨h1, h2⟩ := h
  unfold growIfFull
  split
  · refine ⟨?_, ?_⟩
    · show c.cursor ≤ (vecResize c.buffer (c.cursor * 2)).length
      rw [vecResize_length]; omega
    · show (vecResize c.buffer (c.cursor * 2)).length ≤ max c.cap (c.cursor * 2)
      rw [vecResize_length]; omega
  · exact ⟨h1, h2⟩

theorem bufInv_append (c : Connection) (d : List Nat) (h : BufInv c)
    (hd : d.length ≤ c.buffer.length - c.cursor) : BufInv (appendData c d) := by
  obtain ⟨h1, h2⟩ := h
  have hw : (writeAt c.buffer c.cursor d).length = c.buffer.length :=
    writeAt_length _ _ _ (by omega)
  refine ⟨?_, ?_⟩
  · show c.cursor + d.length ≤ (writeAt c.buffer c.cursor d).length
    rw [hw]; omega
  · show (writeAt c.buffer c.cursor d).length ≤ c.cap
    rw [hw]; exact h2

theorem bufInv_compact (c : Connection) (k : Nat) (h : BufInv c) :
    BufInv (compact c k) := by
  obtain ⟨h1, h2⟩ := h
  have hs := compactShift_length c.buffer k c.cursor h1
  refine ⟨?_, ?_⟩
  · show c.cursor - k ≤ (compactShift c.buffer k c.cursor).length
    rw [hs]; omega
  · show (compactShift c.buffer k c.cursor).length ≤ c.cap
    rw [hs]; exact h2

theorem bufInv_read_frame :
    ∀ (fuel : Nat) (p : Codec) (c : Connection) (t : Transport)
      (r : ReadResult × Connection × Transport × Nat),
      BufInv c → read_frame p fuel c t = some r → BufInv r.2.1 := by
  intro fuel
  induction fuel with
  | zero =>
    intro p c t r h heq
    simp [read_frame] at heq
  | succ n ih =>
    intro p c t r h heq
    cases hp : p (c.buffer.take c.cursor) with
    | Complete f k =>
      rw [read_frame_on_complete p n c t f k hp] at heq
      injection heq with h'
      subst h'
      exact bufInv_compact c k h
    | Incomplete =>
      rw [read_frame_on_incomplete p n c t hp] at heq
      have hI1 : BufInv (growIfFull c) := bufInv_grow c h
      by_cases hd :
          ((transportRead ((growIfFull c).buffer.length - (growIfFull c).cursor) t).1).length
            = 0
      · rw [if_pos hd] at heq
        by_cases he : (growIfFull c).buffer.isEmpty
        · rw [if_pos he] at heq
          injection heq with h'
          subst h'
          exact hI1
        · rw [if_neg he] at heq
          injection heq with h'
          subst h'
          exact hI1
      · rw [if_neg hd] at heq
        obtain ⟨r0, hr0, hr⟩ := Option.map_eq_some'.mp heq
        have hI2 : BufInv (appendData (growIfFull c)
            ((transportRead ((growIfFull c).buffer.length - (growIfFull c).cursor) t).1)) := by
          refine bufInv_append _ _ hI1 ?_
          have := transportRead_length_le
            ((growIfFull c).buffer.length - (growIfFull c).cursor) t
          omega
        have := ih p _ _ r0 hI2 hr0
        subst hr
        simpa [bumpReads] using this
    | Malformed =>
      rw [read_frame_on_malformed p n c t hp] at heq
      injection heq with h'
      subst h'
      exact h

theorem read_frame_empty_state (p : Codec) (fuel : Nat) (c : Connection)
    (t : Transport) (hb : c.buffer = []) (hc : c.cursor = 0) :
    read_frame p (fuel + 1) c t =
      match p [] with
      | .Complete f _ => some (.frame f, c, t, 0)
      | .Incomplete => some (.endOfStream, c, (transportRead 0 t).2, 1)
      | .Malformed => some (.malformed, c, t, 0) := by
  have hlive : c.buffer.take c.cursor = [] := by rw [hb]; simp
  cases hp : p [] with
  | Complete f k =>
    have hp' : p (c.buffer.take c.cursor) = .Complete f k := by rw [hlive, hp]
    rw [read_frame_on_complete p fuel c t f k hp', compact_empty c k hb hc]
  | Incomplete =>
    have hp' : p (c.buffer.take c.cursor) = .Incomplete := by rw [hlive, hp]
    rw [read_frame_on_incomplete p fuel c t hp', growIfFull_empty c hb hc]
    have hdest : c.buffer.length - c.cursor = 0 := by rw [hb, hc]; rfl
    rw [hdest, transportRead_zero_fst]
    simp [hb]
  | Malformed =>
    have hp' : p (c.buffer.take c.cursor) = .Malformed := by rw [hlive, hp]
    rw [read_frame_on_malformed p fuel c t hp']

theorem readFrames_empty_indep (p : Codec) (fuel : Nat) :
    ∀ (calls : Nat) (c : Connection) (t1 t2 : Transport),
      c.buffer = [] → c.cursor = 0 →
      readFrames p fuel calls c t1 = readFrames p fuel calls c t2 := by
  intro calls
  induction calls with
  | zero => intro c t1 t2 hb hc; rfl
  | succ n ih =>
    intro c t1 t2 hb hc
    cases fuel with
    | zero => simp [readFrames, read_frame]
    | succ m =>
      simp only [readFrames]
      rw [read_frame_empty_state p m c t1 hb hc,
          read_frame_empty_state p m c t2 hb hc]
      cases hp : p [] with
      | Complete f k =>
        show f :: readFrames p (m + 1) n c t1 = f :: readFrames p (m + 1) n c t2
        rw [ih c t1 t2 hb hc]
      | Incomplete => rfl
      | Malformed => rfl

/-- C1: in every reader state satisfying `cursor ≤ buffer.len()` whose live
region `[0, cursor)` is nonzero but still unparseable (the grammar reports
not-enough-data), a transport read delivering 0 bytes makes `read_frame`
return the connection-reset (truncated stream) error, never the
end-of-stream signal. -/
theorem truncated_eof_reports_conn_reset (p : Codec) (fuel : Nat)
    (c : Connection) (t : Transport)
    (hlen : c.cursor ≤ c.buffer.length) (hpos : 0 < c.cursor)
    (hp : p (c.buffer.take c.cursor) = .Incomplete)
    (h0 : (transportRead ((growIfFull c).buffer.length - (growIfFull c).cursor) t).1 = []) :
    (read_frame p (fuel + 1) c t).map resultOf = some .connReset := by
  rw [read_frame_on_incomplete p fuel c t hp, h0]
  have hne : (growIfFull c).buffer.isEmpty = false := by
    have hposl := growIfFull_length_pos c hlen hpos
    cases hbuf : (growIfFull c).buffer with
    | nil => rw [hbuf] at hposl; simp at hposl
    | cons a l => rfl
  simp [hne, resultOf]

theorem truncated_eof_reports_conn_reset_witness :
    (read_frame demoCodec 1 ⟨[5], 1, 4096⟩ []).map resultOf = some .connReset :=
  truncated_eof_reports_conn_reset demoCodec 0 ⟨[5], 1, 4096⟩ []
    (by decide) (by decide) (by decide) (by decide)

/-- C2: the code decides between clean end of stream and connection reset
with `self.buffer.is_empty()` — emptiness of the whole vector — not
emptiness of the live region `[0, cursor)`. In the state with buffer
`[0, 0]` and cursor 0 (live region empty, invariant satisfied) and an
exhausted transport, `read_frame` returns the connection-reset error where
the claim demands the end-of-stream signal. -/
theorem clean_eof_check_tests_vec_emptiness :
    (⟨[0, 0], 0, 4096⟩ : Connection).cursor = 0 ∧
    BufInv ⟨[0, 0], 0, 4096⟩ ∧
    read_frame demoCodec 1 ⟨[0, 0], 0, 4096⟩ [] =
      some (.connReset, ⟨[0, 0], 0, 4096⟩, [], 1) := by
  refine ⟨rfl, by decide, by decide⟩

/-- C3: the growth step at the point where the free region is zero. For the
fresh connection the free region is zero (length 0, cursor 0), yet
`resize(cursor * 2, 0)` leaves the connection completely unchanged: the
length stays 0, the capacity stays 4096 (it is not doubled), and the free
region available to the subsequent read is still 0 bytes. -/
theorem growth_at_fresh_connection_is_noop :
    growIfFull Connection.new = Connection.new ∧
    Connection.new.buffer.length = 0 ∧
    Connection.new.cap = 4096 ∧
    (growIfFull Connection.new).buffer.length - (growIfFull Connection.new).cursor = 0 := by
  decide

/-- C4: fragmentation invariance. Starting from a fresh connection, driving
`read_frame` any number of times against the transport split into arbitrary
chunks yields exactly the same frame sequence as against the whole byte
sequence delivered as a single read. (It holds degenerately: the fresh
connection's buffer has length 0, so the reader never ingests transport
data and the decoded sequence does not depend on the transport at all.) -/
theorem fragmentation_invariance (p : Codec) (fuel calls : Nat)
    (chunks : List (List Nat)) :
    readFrames p fuel calls Connection.new chunks =
      readFrames p fuel calls Connection.new [chunks.flatten] :=
  readFrames_empty_indep p fuel calls Connection.new chunks [chunks.flatten] rfl rfl

/-- C5: coalescing fails on the code. `[1, 42]` is the complete
serialization of one frame under the demonstration grammar, delivered in a
single read; the claim demands that one `read_frame` call return that
frame, but the call returns the end-of-stream signal without consuming any
transport data, and no frame is ever decoded. (For contrast, the same bytes
already sitting in the buffer do decode, so the loss is in ingestion.) -/
theorem coalesced_frames_lost_on_fresh_connection :
    demoCodec [1, 42] = .Complete [42] 2 ∧
    read_frame demoCodec 3 Connection.new [[1, 42]] =
      some (.endOfStream, Connection.new, [[1, 42]], 1) ∧
    readFrames demoCodec 3 1 Connection.new [[1, 42]] = [] ∧
    readFrames demoCodec 3 2 ⟨[1, 42, 1, 43], 4, 4096⟩ [] = [[42], [43]] := by
  decide

/-- C6: whenever the grammar reports a malformed live region, `read_frame`
returns the protocol error at once with the connection and the transport
untouched, and the count of transport reads issued by the call is 0. -/
theorem malformed_aborts_without_reads (p : Codec) (fuel : Nat)
    (c : Connection) (t : Transport)
    (hp : p (c.buffer.take c.cursor) = .Malformed) :
    read_frame p (fuel + 1) c t = some (.malformed, c, t, 0) :=
  read_frame_on_malformed p fuel c t hp

theorem malformed_aborts_without_reads_witness :
    read_frame demoCodec 4 ⟨[255, 0], 1, 4096⟩ [[9]] =
      some (.malformed, ⟨[255, 0], 1, 4096⟩, [[9]], 0) :=
  malformed_aborts_without_reads demoCodec 3 ⟨[255, 0], 1, 4096⟩ [[9]] (by decide)

/-- C7: the grow-and-write step performed for a transport read leaves the
bytes at positions `[0, cursor)` byte-for-byte unchanged: growth preserves
them and the delivered bytes are written only at the cursor and beyond. -/
theorem reads_never_clobber_live_bytes (c : Connection) (t : Transport)
    (h : c.cursor ≤ c.buffer.length) :
    ((appendData (growIfFull c)
          ((transportRead ((growIfFull c).buffer.length - (growIfFull c).cursor) t).1)).buffer).take
        c.cursor = c.buffer.take c.cursor := by
  have h1 : c.cursor ≤ (growIfFull c).buffer.length := cursor_le_growIfFull_length c h
  have h2 := growIfFull_take c h
  have h3 := growIfFull_cursor c
  show (writeAt (growIfFull c).buffer (growIfFull c).cursor _).take c.cursor
      = c.buffer.take c.cursor
  rw [h3, writeAt_take _ _ _ h1, h2]

theorem reads_never_clobber_live_bytes_witness :
    ((appendData (growIfFull ⟨[9, 0], 1, 4096⟩)
          ((transportRead ((growIfFull ⟨[9, 0], 1, 4096⟩).buffer.length
              - (growIfFull ⟨[9, 0], 1, 4096⟩).cursor) [[3]]).1)).buffer).take 1
      = [9, 0].take 1 :=
  reads_never_clobber_live_bytes ⟨[9, 0], 1, 4096⟩ [[3]] (by decide)

/-- C8: the invariant `0 ≤ cursor ≤ buffer.len() ≤ capacity` holds at
construction and is preserved by the growth step, by recording freshly read
bytes (which never outnumber the free region), by compaction, and by every
terminating `read_frame` call. -/
theorem reader_invariant_preserved :
    BufInv Connection.new ∧
    (∀ c : Connection, BufInv c → BufInv (growIfFull c)) ∧
    (∀ (c : Connection) (d : List Nat), BufInv c →
        d.length ≤ c.buffer.length - c.cursor → BufInv (appendData c d)) ∧
    (∀ (c : Connection) (k : Nat), BufInv c → BufInv (compact c k)) ∧
    (∀ (fuel : Nat) (p : Codec) (c : Connection) (t : Transport)
        (r : ReadResult × Connection × Transport × Nat),
        BufInv c → read_frame p fuel c t = some r → BufInv r.2.1) :=
  ⟨bufInv_new, bufInv_grow, bufInv_append, bufInv_compact, bufInv_read_frame⟩

theorem reader_invariant_preserved_witness :
    BufInv Connection.new ∧ BufInv (growIfFull ⟨[7], 1, 4096⟩) :=
  ⟨reader_invariant_preserved.1,
   reader_invariant_preserved.2.1 ⟨[7], 1, 4096⟩ (by decide)⟩

/-- C9: in a loop iteration whose parse attempt reports not-enough-data,
exactly one transport read is issued after the growth step — the call
behaves as that single read followed by the recursion, with the read
counter incremented once — and when the read delivers bytes, they are
recorded by advancing the cursor by their number and control loops back to
a fresh parse attempt on the enlarged live region. -/
theorem incomplete_iteration_single_read (p : Codec) (c : Connection)
    (t : Transport) (fuel : Nat) (c1 : Connection) (d : List Nat)
    (t' : Transport)
    (hp : p (c.buffer.take c.cursor) = .Incomplete)
    (hc1 : c1 = growIfFull c)
    (hr : transportRead (c1.buffer.length - c1.cursor) t = (d, t'))
    (hd : d ≠ []) :
    read_frame p (fuel + 1) c t =
      (read_frame p fuel (appendData c1 d) t').map bumpReads ∧
    (appendData c1 d).cursor = c1.cursor + d.length := by
  subst hc1
  constructor
  · rw [read_frame_on_incomplete p fuel c t hp, hr]
    have hlen : d.length ≠ 0 := by
      intro h0
      exact hd (List.length_eq_zero.mp h0)
    simp [hlen]
  · rfl

theorem incomplete_iteration_single_read_witness :
    read_frame demoCodec 3 ⟨[5, 1], 1, 4096⟩ [[2, 3]] =
      (read_frame demoCodec 2 (appendData ⟨[5, 1], 1, 4096⟩ [2]) [[3]]).map bumpReads ∧
    (appendData ⟨[5, 1], 1, 4096⟩ [2]).cursor =
      (⟨[5, 1], 1, 4096⟩ : Connection).cursor + [2].length :=
  incomplete_iteration_single_read demoCodec ⟨[5, 1], 1, 4096⟩ [[2, 3]] 2
    ⟨[5, 1], 1, 4096⟩ [2] [[3]] (by decide) (by decide) (by decide) (by decide)

/-- C10: on a fresh connection whose parse attempt yields no frame, the
growth step is a no-op (the buffer length is 0, so `resize(0 * 2, 0)`
changes nothing), the transport read gets a zero-length destination and
returns 0 bytes, and `read_frame` returns the end-of-stream signal —
whatever data the transport actually holds. -/
theorem fresh_connection_reads_nothing (p : Codec) (fuel : Nat)
    (t : Transport) (h : p [] = .Incomplete) :
    growIfFull Connection.new = Connection.new ∧
    read_frame p (fuel + 1) Connection.new t =
      some (.endOfStream, Connection.new, (transportRead 0 t).2, 1) := by
  refine ⟨growIfFull_empty Connection.new rfl rfl, ?_⟩
  rw [read_frame_empty_state p fuel Connection.new t rfl rfl, h]

theorem fresh_connection_reads_nothing_witness :
    growIfFull Connection.new = Connection.new ∧
    read_frame demoCodec 1 Connection.new [[1, 42]] =
      some (.endOfStream, Connection.new, (transportRead 0 [[1, 42]]).2, 1) :=
  fresh_connection_reads_nothing demoCodec 0 [[1, 42]] (by decide)
